import Mathlib

/-!
Verification of the intellichat-ai backend request pipeline.

Shallow embedding of the core pipeline code of the repository:
retry with exponential backoff and the LLM error classifier
(src/shared/utils/retry.ts), the context builder
(ContextService, context.service.ts), the Redis-backed counter
(CacheService.increment, cache.service.ts), the rate-limiter middleware
(rate-limiter.ts), the global error handler (error-handler.ts), and the
chat controller (chat.controller.ts).

Stateful and asynchronous code is embedded by passing the outcome of each
external call (database, Redis, LLM provider) explicitly: an operation that
may fail is a value of `Except`, and the embedding is a pure function of
those outcomes.
-/

namespace IntelliChat

/-- Trace of one full run of `retryWithBackoff`
(src/shared/utils/retry.ts): the final outcome, the number of times the
wrapped operation was invoked, and the list of inter-attempt sleeps in
order. `result = .error none` models the `throw lastError` reached with
`lastError` still unset, which happens only when `maxRetries = 0` and the
loop body never runs. -/
structure RetryResult (ε α : Type) where
  result : Except (Option ε) α
  calls : Nat
  delays : List Nat

/-- Body of the `for (let attempt = 0; attempt < maxRetries; attempt++)`
loop of `retryWithBackoff`. The operation is modelled as a function from
the attempt index to the outcome of that attempt. A delay
`min (baseDelayMs * 2 ^ attempt) maxDelayMs` is recorded only when
`attempt < maxRetries - 1`, exactly as the source sleeps only then. -/
def retryAux {ε α : Type} (fn : Nat → Except ε α) (isRetryable : ε → Bool)
    (maxRetries baseDelayMs maxDelayMs attempt : Nat) : RetryResult ε α :=
  if h : attempt < maxRetries then
    match fn attempt with
    | .ok value => ⟨.ok value, 1, []⟩
    | .error e =>
      if isRetryable e then
        if attempt < maxRetries - 1 then
          let delay := min (baseDelayMs * 2 ^ attempt) maxDelayMs
          let rest := retryAux fn isRetryable maxRetries baseDelayMs maxDelayMs (attempt + 1)
          ⟨rest.result, rest.calls + 1, delay :: rest.delays⟩
        else
          ⟨.error (some e), 1, []⟩
      else
        ⟨.error (some e), 1, []⟩
  else
    ⟨.error none, 0, []⟩
termination_by maxRetries - attempt
decreasing_by omega

/-- Embedding of `retryWithBackoff(fn, maxRetries, baseDelayMs, isRetryable,
maxDelayMs)` from src/shared/utils/retry.ts (source defaults:
`baseDelayMs = 1000`, `isRetryable = () => true`, `maxDelayMs = 10000`). -/
def retryWithBackoff {ε α : Type} (fn : Nat → Except ε α) (maxRetries : Nat)
    (baseDelayMs : Nat) (isRetryable : ε → Bool) (maxDelayMs : Nat) : RetryResult ε α :=
  retryAux fn isRetryable maxRetries baseDelayMs maxDelayMs 0

/-- Does `needle` occur at the very start of `haystack`? Helper for the
embedding of JavaScript `String.prototype.includes`. -/
def matchesAt : List Char → List Char → Bool
  | [], _ => true
  | _ :: _, [] => false
  | c :: cs, d :: ds => c == d && matchesAt cs ds

/-- Does `needle` occur anywhere in `haystack`? Embedding of JavaScript
`haystack.includes(needle)` on the character lists. -/
def containsSub (needle : List Char) : List Char → Bool
  | [] => matchesAt needle []
  | d :: ds => matchesAt needle (d :: ds) || containsSub needle ds

/-- Character list of `message.toLowerCase()` (the classifier only feeds it
ASCII keywords, for which `Char.toLower` agrees with JavaScript). -/
def lowerChars (s : String) : List Char :=
  s.data.map Char.toLower

/-- Embedding of `isLLMErrorRetryable` from src/shared/utils/retry.ts: the
error message is lowercased, and the error is non-retryable exactly when
the lowercased message contains one of the four client-error keywords. -/
def isLLMErrorRetryable (errMessage : String) : Bool :=
  let message := lowerChars errMessage
  if containsSub "invalid".data message || containsSub "unauthorized".data message
      || containsSub "forbidden".data message || containsSub "not found".data message then
    false
  else
    true

lemma retryAux_calls_pos {ε α : Type} (fn : Nat → Except ε α) (isRetryable : ε → Bool)
    (maxRetries baseDelayMs maxDelayMs attempt : Nat) (h : attempt < maxRetries) :
    1 ≤ (retryAux fn isRetryable maxRetries baseDelayMs maxDelayMs attempt).calls := by
  rw [retryAux]
  simp only [dif_pos h]
  cases hfn : fn attempt with
  | ok value => simp
  | error e =>
    by_cases hr : isRetryable e
    · by_cases hlast : attempt < maxRetries - 1
      · simp [hr, hlast]
      · simp [hr, hlast]
    · simp [hr]

lemma retryWithBackoff_nonretryable {ε α : Type} (fn : Nat → Except ε α)
    (isRetryable : ε → Bool) (n baseDelayMs maxDelayMs : Nat) (e : ε)
    (h0 : fn 0 = .error e) (hr : isRetryable e = false) (hn : 0 < n) :
    retryWithBackoff fn n baseDelayMs isRetryable maxDelayMs = ⟨.error (some e), 1, []⟩ := by
  rw [retryWithBackoff, retryAux]
  simp [hn, h0, hr]

lemma retryWithBackoff_retryable_retries {ε α : Type} (fn : Nat → Except ε α)
    (isRetryable : ε → Bool) (n baseDelayMs maxDelayMs : Nat) (e : ε)
    (h0 : fn 0 = .error e) (hr : isRetryable e = true) (hn : 2 ≤ n) :
    2 ≤ (retryWithBackoff fn n baseDelayMs isRetryable maxDelayMs).calls := by
  have hpos : 0 < n := by omega
  have hlast : 0 < n - 1 := by omega
  have hcalls := retryAux_calls_pos fn isRetryable n baseDelayMs maxDelayMs 1 (by omega)
  rw [retryWithBackoff, retryAux]
  simp [hpos, h0, hr, hlast]
  omega

/-- C1: with `maxRetries = 3`, an operation that fails with a retryable
error on attempts 0 and 1 and succeeds on attempt 2 yields the successful
result after exactly 3 invocations, and the two inter-attempt delays are
`min (baseDelayMs * 2 ^ attempt) maxDelayMs` for `attempt = 0, 1` — hence
non-decreasing and capped at `maxDelayMs` — with no sleep recorded after
the final attempt. -/
theorem retryWithBackoff_two_failures_then_success {ε α : Type}
    (fn : Nat → Except ε α) (isRetryable : ε → Bool)
    (baseDelayMs maxDelayMs : Nat) (e0 e1 : ε) (value : α)
    (h0 : fn 0 = .error e0) (h1 : fn 1 = .error e1) (h2 : fn 2 = .ok value)
    (r0 : isRetryable e0 = true) (r1 : isRetryable e1 = true) :
    retryWithBackoff fn 3 baseDelayMs isRetryable maxDelayMs =
      ⟨.ok value, 3,
        [min (baseDelayMs * 2 ^ 0) maxDelayMs, min (baseDelayMs * 2 ^ 1) maxDelayMs]⟩ ∧
    min (baseDelayMs * 2 ^ 0) maxDelayMs ≤ min (baseDelayMs * 2 ^ 1) maxDelayMs ∧
    min (baseDelayMs * 2 ^ 0) maxDelayMs ≤ maxDelayMs ∧
    min (baseDelayMs * 2 ^ 1) maxDelayMs ≤ maxDelayMs := by
  refine ⟨?_, ?_, Nat.min_le_right _ _, Nat.min_le_right _ _⟩
  · rw [retryWithBackoff, retryAux]
    simp only [show (0:Nat) < 3 by decide, dif_pos, h0, r0, show (0:Nat) < 3 - 1 by decide,
      if_pos, if_true]
    rw [retryAux]
    simp only [show (1:Nat) < 3 by decide, dif_pos, h1, r1, show (1:Nat) < 3 - 1 by decide,
      if_pos, if_true]
    rw [retryAux]
    simp only [show (2:Nat) < 3 by decide, dif_pos, h2]
  · exact min_le_min (Nat.mul_le_mul_left _ (by decide)) le_rfl

/-- Concrete operation used to instantiate the retry scenario of C1. -/
def opC1 : Nat → Except String Nat :=
  fun i => if i < 2 then .error "boom" else .ok 42

theorem retryWithBackoff_two_failures_then_success_witness :
    opC1 0 = .error "boom" ∧ opC1 1 = .error "boom" ∧ opC1 2 = .ok 42 ∧
    (fun (_ : String) => true) "boom" = true ∧
    retryWithBackoff opC1 3 1000 (fun _ => true) 10000 =
      ⟨.ok 42, 3, [min (1000 * 2 ^ 0) 10000, min (1000 * 2 ^ 1) 10000]⟩ :=
  ⟨rfl, rfl, rfl, rfl,
    (retryWithBackoff_two_failures_then_success opC1 (fun _ => true) 1000 10000
      "boom" "boom" 42 rfl rfl rfl rfl rfl).1⟩

/-- C2: an error whose lowercased message contains one of the keywords
`invalid`, `unauthorized`, `forbidden`, `not found` is classified
non-retryable and `retryWithBackoff` invokes the operation exactly once
before failing with that error; every other error is classified retryable
and (with at least two attempts allowed) the operation is retried. -/
theorem isLLMErrorRetryable_classifies_and_gates_retries {α : Type}
    (msg : String) (n baseDelayMs maxDelayMs : Nat) (hn : 2 ≤ n) :
    ((containsSub "invalid".data (lowerChars msg) = true ∨
      containsSub "unauthorized".data (lowerChars msg) = true ∨
      containsSub "forbidden".data (lowerChars msg) = true ∨
      containsSub "not found".data (lowerChars msg) = true) →
        isLLMErrorRetryable msg = false ∧
        ∀ fn : Nat → Except String α, fn 0 = .error msg →
          retryWithBackoff fn n baseDelayMs isLLMErrorRetryable maxDelayMs =
            ⟨.error (some msg), 1, []⟩) ∧
    ((containsSub "invalid".data (lowerChars msg) = false ∧
      containsSub "unauthorized".data (lowerChars msg) = false ∧
      containsSub "forbidden".data (lowerChars msg) = false ∧
      containsSub "not found".data (lowerChars msg) = false) →
        isLLMErrorRetryable msg = true ∧
        ∀ fn : Nat → Except String α, fn 0 = .error msg →
          2 ≤ (retryWithBackoff fn n baseDelayMs isLLMErrorRetryable maxDelayMs).calls) := by
  constructor
  · intro hbad
    have hfalse : isLLMErrorRetryable msg = false := by
      unfold isLLMErrorRetryable
      rcases hbad with h | h | h | h <;> simp [h]
    exact ⟨hfalse, fun fn h0 =>
      retryWithBackoff_nonretryable fn isLLMErrorRetryable n baseDelayMs maxDelayMs msg
        h0 hfalse (by omega)⟩
  · intro hgood
    have htrue : isLLMErrorRetryable msg = true := by
      unfold isLLMErrorRetryable
      simp [hgood.1, hgood.2.1, hgood.2.2.1, hgood.2.2.2]
    exact ⟨htrue, fun fn h0 =>
      retryWithBackoff_retryable_retries fn isLLMErrorRetryable n baseDelayMs maxDelayMs msg
        h0 htrue hn⟩

/-- Concrete always-failing operation used to instantiate C2. -/
def opC2 : Nat → Except String Nat :=
  fun _ => .error "Invalid API key"

theorem isLLMErrorRetryable_classifies_and_gates_retries_witness :
    2 ≤ 3 ∧
    containsSub "invalid".data (lowerChars "Invalid API key") = true ∧
    opC2 0 = .error "Invalid API key" ∧
    isLLMErrorRetryable "Invalid API key" = false ∧
    retryWithBackoff opC2 3 1000 isLLMErrorRetryable 10000 =
      ⟨.error (some "Invalid API key"), 1, []⟩ := by
  have h := (isLLMErrorRetryable_classifies_and_gates_retries (α := Nat)
    "Invalid API key" 3 1000 10000 (by decide)).1 (Or.inl (by decide))
  exact ⟨by decide, by decide, rfl, h.1, h.2 opC2 rfl⟩

/-- Sender role of an LLM-facing message (type `LLMMessage.role` in
context.service.ts). -/
inductive Role where
  | user
  | assistant
  | system
deriving DecidableEq

/-- Embedding of the LLMMessage interface of context.service.ts. -/
structure LLMMessage where
  role : Role
  content : String
deriving DecidableEq

/-- Embedding of the Prisma `Message` row as used by the pipeline: sender
tag (`"user"` or `"ai"` in practice, but any string is representable),
text content, and timestamps flattened to naturals. -/
structure Message where
  id : Nat
  sender : String
  content : String
  timestamp : Nat
deriving DecidableEq

namespace ContextService

/-- Embedding of `ContextService.formatForLLM`: map each stored message to
a role/content pair, sender `"user"` to role `user` and every other sender
to role `assistant`, keeping the content verbatim. -/
def formatForLLM (messages : List Message) : List LLMMessage :=
  messages.map fun msg =>
    { role := if msg.sender = "user" then Role.user else Role.assistant
      content := msg.content }

/-- Embedding of `ContextService.limitContext`: return `messages` unchanged
when `messages.length ≤ maxCount`, otherwise `messages.slice(-maxCount)`.
JavaScript `slice(-0)` equals `slice(0)` and returns the whole array, which
is the `maxCount = 0` branch; for `1 ≤ maxCount < messages.length`,
`slice(-maxCount)` keeps the final `maxCount` elements, i.e. drops the
first `length - maxCount`. -/
def limitContext (messages : List Message) (maxCount : Nat) : List Message :=
  if messages.length ≤ maxCount then
    messages
  else if maxCount = 0 then
    messages
  else
    messages.drop (messages.length - maxCount)

end ContextService

/-- C3 counterexample: at `maxCount = 0` with one stored message the
source returns the whole list (JavaScript `slice(-0)` is `slice(0)`), so
the returned length is 1, not `min 1 0 = 0` as the claim requires. -/
theorem limitContext_zero_maxCount_counterexample :
    (ContextService.limitContext [⟨1, "user", "hi", 0⟩] 0).length ≠
      min ([(⟨1, "user", "hi", 0⟩ : Message)].length) 0 := by
  decide

/-- C3 amended: for every `maxCount ≥ 1`, `limitContext` returns the final
`maxCount` elements in their original order, so its length is
`min messages.length maxCount`; moreover for every `maxCount`, when
`messages.length ≤ maxCount` the input list is returned unchanged. -/
theorem limitContext_keeps_last_maxCount (messages : List Message) (maxCount : Nat)
    (hmax : 1 ≤ maxCount) :
    (ContextService.limitContext messages maxCount).length = min messages.length maxCount ∧
    ContextService.limitContext messages maxCount =
      messages.drop (messages.length - maxCount) ∧
    (messages.length ≤ maxCount → ContextService.limitContext messages maxCount = messages) := by
  by_cases h : messages.length ≤ maxCount
  · have hdrop : messages.length - maxCount = 0 := by omega
    simp [ContextService.limitContext, h, hdrop, Nat.min_eq_left h]
  · have hlt : maxCount < messages.length := by omega
    have hne : maxCount ≠ 0 := by omega
    refine ⟨?_, ?_, fun hc => absurd hc h⟩
    · simp [ContextService.limitContext, h, hne, List.length_drop]
      omega
    · simp [ContextService.limitContext, h, hne]

theorem limitContext_keeps_last_maxCount_witness :
    1 ≤ 2 ∧
    (ContextService.limitContext
        [⟨1, "user", "a", 0⟩, ⟨2, "ai", "b", 1⟩, ⟨3, "user", "c", 2⟩] 2).length =
      min 3 2 ∧
    ContextService.limitContext
        [⟨1, "user", "a", 0⟩, ⟨2, "ai", "b", 1⟩, ⟨3, "user", "c", 2⟩] 2 =
      [⟨2, "ai", "b", 1⟩, ⟨3, "user", "c", 2⟩] := by
  have h := limitContext_keeps_last_maxCount
    [⟨1, "user", "a", 0⟩, ⟨2, "ai", "b", 1⟩, ⟨3, "user", "c", 2⟩] 2 (by decide)
  exact ⟨by decide, by rw [h.1]; decide, by rw [h.2.1]; decide⟩

/-- C10: `formatForLLM` preserves length and order, copies each content
verbatim, and maps a message to role `user` exactly when its sender is the
string `"user"`; every other sender value is mapped to role `assistant`. -/
theorem formatForLLM_pointwise (messages : List Message) :
    (ContextService.formatForLLM messages).length = messages.length ∧
    ∀ i, i < messages.length →
      ((ContextService.formatForLLM messages).getD i ⟨Role.system, ""⟩).content =
        (messages.getD i ⟨0, "", "", 0⟩).content ∧
      (((ContextService.formatForLLM messages).getD i ⟨Role.system, ""⟩).role = Role.user ↔
        (messages.getD i ⟨0, "", "", 0⟩).sender = "user") ∧
      ((messages.getD i ⟨0, "", "", 0⟩).sender ≠ "user" →
        ((ContextService.formatForLLM messages).getD i ⟨Role.system, ""⟩).role =
          Role.assistant) := by
  refine ⟨by simp [ContextService.formatForLLM], fun i hi => ?_⟩
  have hget : messages[i]? = some (messages.getD i ⟨0, "", "", 0⟩) := by
    rw [List.getD_eq_getElem?_getD, List.getElem?_eq_getElem hi]
    rfl
  have hmap : (ContextService.formatForLLM messages).getD i ⟨Role.system, ""⟩ =
      { role := if (messages.getD i ⟨0, "", "", 0⟩).sender = "user" then Role.user
                else Role.assistant
        content := (messages.getD i ⟨0, "", "", 0⟩).content } := by
    rw [List.getD_eq_getElem?_getD, ContextService.formatForLLM, List.getElem?_map, hget]
    rfl
  rw [hmap]
  by_cases hs : (messages.getD i ⟨0, "", "", 0⟩).sender = "user"
  · simp [hs]
  · simp [hs]

theorem formatForLLM_pointwise_witness :
    (0:Nat) < 2 ∧
    ((ContextService.formatForLLM
        [⟨1, "user", "hello", 0⟩, ⟨2, "ai", "hi there", 1⟩]).getD 0
          ⟨Role.system, ""⟩).content =
      (([⟨1, "user", "hello", 0⟩, ⟨2, "ai", "hi there", 1⟩] :
          List Message).getD 0 ⟨0, "", "", 0⟩).content := by
  have h := (formatForLLM_pointwise
    [⟨1, "user", "hello", 0⟩, ⟨2, "ai", "hi there", 1⟩]).2 0 (by decide)
  exact ⟨by decide, h.1⟩

/-- State of one Redis counter key: absent, or present with a count and an
optional absolute expiry instant (seconds). -/
abbrev RedisState := Option (Nat × Option Nat)

/-- Has the key expired at instant `now`? Redis removes a key once its
expiry instant is reached. -/
def isExpired (st : RedisState) (now : Nat) : Bool :=
  match st with
  | some (_, some e) => e ≤ now
  | _ => false

/-- A key that has expired behaves exactly like an absent key. -/
def liveState (st : RedisState) (now : Nat) : RedisState :=
  if isExpired st now then none else st

namespace CacheService

/-- Embedding of `CacheService.increment` (cache.service.ts) against a
single key, with Redis reachable: `INCR` treats a missing or expired key
as 0 and creates it, and the expiry is set (`EXPIRE key ttl`) only when
`newValue === 1 && ttl`, i.e. on the increment that created the key and
with a truthy `ttl` (JavaScript: `ttl = 0` and `ttl = undefined` are both
falsy). Returns the new value and the resulting key state. -/
def increment (st : RedisState) (now : Nat) (ttl : Option Nat) : Nat × RedisState :=
  let base := liveState st now
  let newValue := match base with
    | none => 1
    | some (c, _) => c + 1
  let keptExpiry := match base with
    | none => none
    | some (_, e) => e
  let ttlTruthy := match ttl with
    | some w => decide (w ≠ 0)
    | none => false
  let expiry := if newValue = 1 && ttlTruthy then
      match ttl with
      | some w => some (now + w)
      | none => keptExpiry
    else keptExpiry
  (newValue, some (newValue, expiry))

end CacheService

/-- Outcome of one pass through the middleware returned by
`createRateLimiter`: allow (the `next()` path) or deny (the thrown
`RateLimitError` path). -/
inductive Decision where
  | allow
  | deny
deriving DecidableEq

/-- Observable result of one rate-limiter check: the decision, whether the
Redis-unavailable warning was logged, and the `X-RateLimit-Limit` /
`X-RateLimit-Remaining` headers when they were set. -/
structure RLOutcome where
  decision : Decision
  warnedUnavailable : Bool
  headers : Option (Nat × Nat)
deriving DecidableEq

/-- Embedding of the decision logic of `createRateLimiter`
(rate-limiter.ts) given the value returned by `cacheService.increment`:
`null` (Redis unavailable) logs a warning and allows; a numeric count sets
the headers (`X-RateLimit-Remaining` is `Math.max(0, maxRequests - count)`,
which Nat subtraction gives directly) and denies exactly when
`count > maxRequests`. -/
def rateLimiterCheck (maxRequests : Nat) (requestCount : Option Nat) : RLOutcome :=
  match requestCount with
  | none => ⟨.allow, true, none⟩
  | some count =>
    if count > maxRequests then
      ⟨.deny, false, some (maxRequests, maxRequests - count)⟩
    else
      ⟨.allow, false, some (maxRequests, maxRequests - count)⟩

/-- One full middleware pass with Redis reachable: increment the counter
with `ttl = windowSeconds`, then decide. Returns the outcome and the new
key state. -/
def rateLimitedRequest (maxRequests windowSeconds : Nat) (st : RedisState) (now : Nat) :
    RLOutcome × RedisState :=
  let r := CacheService.increment st now (some windowSeconds)
  (rateLimiterCheck maxRequests (some r.1), r.2)

/-- Key state after `k` requests, all at instant `now`, starting from a
fresh (absent) key. -/
def stateAfter (maxRequests windowSeconds now : Nat) : Nat → RedisState
  | 0 => none
  | k + 1 =>
    (rateLimitedRequest maxRequests windowSeconds
      (stateAfter maxRequests windowSeconds now k) now).2

/-- Outcome of the next request at instant `now` from key state `st`. -/
def requestAt (maxRequests windowSeconds : Nat) (st : RedisState) (now : Nat) : RLOutcome :=
  (rateLimitedRequest maxRequests windowSeconds st now).1

lemma increment_fresh (now w : Nat) (hw : 0 < w) :
    CacheService.increment none now (some w) = (1, some (1, some (now + w))) := by
  simp [CacheService.increment, liveState, isExpired, Nat.pos_iff_ne_zero.mp hw]

lemma increment_live (c e now w : Nat) (hc : 0 < c) (hlive : now < e) :
    CacheService.increment (some (c, some e)) now (some w) =
      (c + 1, some (c + 1, some e)) := by
  have h1 : ¬ e ≤ now := by omega
  simp [CacheService.increment, liveState, isExpired, h1]
  omega

lemma increment_expired (c e now w : Nat) (hexp : e ≤ now) (hw : 0 < w) :
    CacheService.increment (some (c, some e)) now (some w) =
      (1, some (1, some (now + w))) := by
  simp [CacheService.increment, liveState, isExpired, hexp, Nat.pos_iff_ne_zero.mp hw]

lemma stateAfter_eq (maxRequests w t : Nat) (hw : 0 < w) :
    ∀ k, 0 < k → stateAfter maxRequests w t k = some (k, some (t + w)) := by
  intro k hk
  induction k with
  | zero => omega
  | succ n ih =>
    cases n with
    | zero =>
      simp [stateAfter, rateLimitedRequest, increment_fresh t w hw]
    | succ m =>
      rw [stateAfter, ih (by omega)]
      have hlive : t < t + w := by omega
      simp [rateLimitedRequest, increment_live (m + 1) (t + w) t w (by omega) hlive]

/-- C4: with a numeric count the limiter allows exactly when
`count ≤ maxRequests` and denies exactly when `count > maxRequests`;
with `maxRequests = 10` and a fresh window, the 10th request at instant `t`
is allowed and the 11th is denied, and once the window TTL has elapsed
(`t + windowSeconds ≤ t1`) the counter resets and the next request is
allowed again. -/
theorem rateLimiter_boundary_and_window_reset :
    (∀ maxRequests count,
      ((rateLimiterCheck maxRequests (some count)).decision = .allow ↔
        count ≤ maxRequests) ∧
      ((rateLimiterCheck maxRequests (some count)).decision = .deny ↔
        maxRequests < count)) ∧
    (∀ w t t1, 0 < w → t + w ≤ t1 →
      (requestAt 10 w (stateAfter 10 w t 9) t).decision = .allow ∧
      (requestAt 10 w (stateAfter 10 w t 10) t).decision = .deny ∧
      (requestAt 10 w (stateAfter 10 w t 11) t1).decision = .allow) := by
  constructor
  · intro maxRequests count
    by_cases hlt : maxRequests < count <;>
      simp [rateLimiterCheck, hlt] <;> omega
  · intro w t t1 hw hwin
    have h9 := stateAfter_eq 10 w t hw 9 (by omega)
    have h10 := stateAfter_eq 10 w t hw 10 (by omega)
    have h11 := stateAfter_eq 10 w t hw 11 (by omega)
    have hlive : t < t + w := by omega
    refine ⟨?_, ?_, ?_⟩
    · rw [h9]
      simp [requestAt, rateLimitedRequest,
        increment_live 9 (t + w) t w (by omega) hlive, rateLimiterCheck]
    · rw [h10]
      simp [requestAt, rateLimitedRequest,
        increment_live 10 (t + w) t w (by omega) hlive, rateLimiterCheck]
    · rw [h11]
      simp [requestAt, rateLimitedRequest,
        increment_expired 11 (t + w) t1 w hwin hw, rateLimiterCheck]

theorem rateLimiter_boundary_and_window_reset_witness :
    (0:Nat) < 60 ∧ 0 + 60 ≤ 60 ∧
    ((rateLimiterCheck 10 (some 10)).decision = .allow ↔ 10 ≤ 10) ∧
    (requestAt 10 60 (stateAfter 10 60 0 9) 0).decision = .allow ∧
    (requestAt 10 60 (stateAfter 10 60 0 10) 0).decision = .deny ∧
    (requestAt 10 60 (stateAfter 10 60 0 11) 60).decision = .allow := by
  have h := rateLimiter_boundary_and_window_reset.2 60 0 60 (by decide) (by decide)
  exact ⟨by decide, by decide, (rateLimiter_boundary_and_window_reset.1 10 10).1,
    h.1, h.2.1, h.2.2⟩

/-- C5: an increment with a (truthy) TTL sets the key expiry exactly when
the resulting value is 1, to `now + ttl`; an increment whose resulting
value exceeds 1 hits a live key and keeps its expiry unchanged, so
increments within the window never refresh the TTL. -/
theorem increment_sets_ttl_only_on_creation (st : RedisState) (now w : Nat) (hw : 0 < w) :
    ((CacheService.increment st now (some w)).1 = 1 →
      (CacheService.increment st now (some w)).2 = some (1, some (now + w))) ∧
    ((CacheService.increment st now (some w)).1 ≠ 1 →
      ∃ c e, st = some (c, e) ∧ isExpired st now = false ∧
        (CacheService.increment st now (some w)).1 = c + 1 ∧
        (CacheService.increment st now (some w)).2 = some (c + 1, e)) := by
  have hw' : w ≠ 0 := by omega
  match st with
  | none =>
    refine ⟨fun _ => ?_, fun h => absurd ?_ h⟩
    · simp [CacheService.increment, liveState, isExpired, hw']
    · simp [CacheService.increment, liveState, isExpired]
  | some (c, none) =>
    cases c with
    | zero =>
      refine ⟨fun _ => ?_, fun h => absurd ?_ h⟩
      · simp [CacheService.increment, liveState, isExpired, hw']
      · simp [CacheService.increment, liveState, isExpired]
    | succ m =>
      refine ⟨fun h => ?_, fun _ => ⟨m + 1, none, rfl, by simp [isExpired], ?_, ?_⟩⟩
      · simp [CacheService.increment, liveState, isExpired] at h
      · simp [CacheService.increment, liveState, isExpired]
      · simp [CacheService.increment, liveState, isExpired]
  | some (c, some e) =>
    by_cases hexp : e ≤ now
    · refine ⟨fun _ => ?_, fun h => absurd ?_ h⟩
      · simp [CacheService.increment, liveState, isExpired, hexp, hw']
      · simp [CacheService.increment, liveState, isExpired, hexp]
    · cases c with
      | zero =>
        refine ⟨fun _ => ?_, fun h => absurd ?_ h⟩
        · simp [CacheService.increment, liveState, isExpired, hexp, hw']
        · simp [CacheService.increment, liveState, isExpired, hexp]
      | succ m =>
        refine ⟨fun h => ?_,
          fun _ => ⟨m + 1, some e, rfl, by simp [isExpired, hexp], ?_, ?_⟩⟩
        · simp [CacheService.increment, liveState, isExpired, hexp] at h
        · simp [CacheService.increment, liveState, isExpired, hexp]
        · simp [CacheService.increment, liveState, isExpired, hexp]

theorem increment_sets_ttl_only_on_creation_witness :
    (0:Nat) < 60 ∧
    (CacheService.increment none 5 (some 60)).1 = 1 ∧
    (CacheService.increment none 5 (some 60)).2 = some (1, some (5 + 60)) ∧
    (CacheService.increment (some (3, some 100)) 5 (some 60)).1 = 4 ∧
    (CacheService.increment (some (3, some 100)) 5 (some 60)).2 = some (4, some 100) := by
  have hfresh := (increment_sets_ttl_only_on_creation none 5 60 (by decide)).1 (by decide)
  have hlive := (increment_sets_ttl_only_on_creation (some (3, some 100)) 5 60
    (by decide)).2 (by decide)
  obtain ⟨c, e, hst, -, hval, hst'⟩ := hlive
  have hc : c = 3 := by injection hst with h1; injection h1 with h2 h3; omega
  have he : e = some 100 := by injection hst with h1; injection h1 with h2 h3; exact h3.symm
  subst hc he
  exact ⟨by decide, by decide, hfresh, hval, hst'⟩

/-- C6: when the counter store is unavailable (`increment` returned
`null`), the limiter allows the request — no `RateLimitError` is raised,
the `next()` handler runs — and the warning is logged. -/
theorem rateLimiter_allows_when_store_unavailable :
    ∀ maxRequests, rateLimiterCheck maxRequests none =
      ⟨Decision.allow, true, none⟩ :=
  fun _ => rfl

/-- Closed error taxonomy of custom-errors.ts, plus `jsError` for a plain
JavaScript `Error` (which is not an `AppError`). -/
inductive ChatError where
  | validationError (msg : String)
  | conversationNotFoundError (sessionId : String)
  | llmTimeoutError (msg : String)
  | llmRateLimitError (msg : String) (retryAfter : Option Nat)
  | llmServiceError (msg : String)
  | databaseError (msg : String)
  | rateLimitError (msg : String)
  | jsError (msg : String)
deriving DecidableEq

namespace ChatError

/-- The `statusCode` each constructor in custom-errors.ts assigns (a plain
`Error` has none; 500 is what the handler answers for it). -/
def statusCode : ChatError → Nat
  | .validationError _ => 400
  | .conversationNotFoundError _ => 404
  | .llmTimeoutError _ => 503
  | .llmRateLimitError _ _ => 429
  | .llmServiceError _ => 503
  | .databaseError _ => 500
  | .rateLimitError _ => 429
  | .jsError _ => 500

/-- The `message` property of each error. -/
def message : ChatError → String
  | .validationError m => m
  | .conversationNotFoundError sid => "Conversation not found: " ++ sid
  | .llmTimeoutError m => m
  | .llmRateLimitError m _ => m
  | .llmServiceError m => m
  | .databaseError m => m
  | .rateLimitError m => m
  | .jsError m => m

/-- Is the error an `AppError` with `isOperational = true`? Every
`AppError` subclass in custom-errors.ts passes `isOperational = true`;
a plain `Error` is not an `AppError` at all. -/
def isOperationalAppError : ChatError → Bool
  | .jsError _ => false
  | _ => true

end ChatError

/-- HTTP response as far as the claims observe it: status, the optional
`Retry-After` header value, and the JSON body error string. -/
structure HttpResponse where
  status : Nat
  retryAfter : Option Nat
  body : String
deriving DecidableEq

/-- Embedding of `handleOperationalError` (error-handler.ts): the
`instanceof` cascade. The `Retry-After` header is set only in the
`LLMRateLimitError` branch and only when `error.retryAfter` is truthy
(0 is falsy). The general `RateLimitError` thrown by the rate limiter
matches none of the `instanceof` branches and falls through to the generic
arm, which answers with `error.statusCode` and sets no header. -/
def handleOperationalError (e : ChatError) : HttpResponse :=
  match e with
  | .validationError m => ⟨400, none, m⟩
  | .conversationNotFoundError _ => ⟨404, none, "Conversation not found"⟩
  | .llmTimeoutError m => ⟨503, none, m⟩
  | .llmRateLimitError m ra =>
    ⟨429,
      (match ra with
       | some r => if r ≠ 0 then some r else none
       | none => none), m⟩
  | .llmServiceError _ =>
    ⟨503, none, "AI service is temporarily unavailable. Please try again later."⟩
  | .databaseError _ =>
    ⟨500, none, "A temporary issue occurred. Please try again."⟩
  | other => ⟨other.statusCode, none, other.message⟩

/-- Embedding of `handleProgrammingError`: 500 with the generic internal
message, never exposing details. -/
def handleProgrammingError (_e : ChatError) : HttpResponse :=
  ⟨500, none, "Something went wrong. Please try again."⟩

/-- Embedding of `errorHandler` (error-handler.ts). -/
def errorHandler (e : ChatError) : HttpResponse :=
  if e.isOperationalAppError then handleOperationalError e else handleProgrammingError e

/-- C8 counterexample: the `RateLimitError` thrown by the session rate
limiter on denial is mapped by the global handler to status 429 with NO
`Retry-After` header, so a rate-limited chat request does not carry that
header as the claim requires. -/
theorem rateLimit_denial_no_retry_after_counterexample :
    (errorHandler (ChatError.rateLimitError
      "Too many messages. Please wait a moment before sending more.")).status = 429 ∧
    (errorHandler (ChatError.rateLimitError
      "Too many messages. Please wait a moment before sending more.")).retryAfter =
      none :=
  ⟨rfl, rfl⟩

/-- C8 amended: a chat request denied by a rate limiter receives status
429, but no `Retry-After` header is set for it; the header is set only for
an LLM-provider `LLMRateLimitError` carrying a nonzero `retryAfter` hint,
which the limiter middleware never throws. -/
theorem rateLimit_denial_status_429_without_retry_after :
    (∀ msg, errorHandler (ChatError.rateLimitError msg) = ⟨429, none, msg⟩) ∧
    (∀ msg ra, 0 < ra →
      (errorHandler (ChatError.llmRateLimitError msg (some ra))).retryAfter =
        some ra) := by
  constructor
  · intro msg
    rfl
  · intro msg ra hra
    simp [errorHandler, ChatError.isOperationalAppError, handleOperationalError,
      Nat.pos_iff_ne_zero.mp hra]

theorem rateLimit_denial_status_429_without_retry_after_witness :
    (0:Nat) < 60 ∧
    errorHandler (ChatError.rateLimitError
        "Too many requests. Please try again later.") =
      ⟨429, none, "Too many requests. Please try again later."⟩ ∧
    (errorHandler (ChatError.llmRateLimitError "Rate limited" (some 60))).retryAfter =
      some 60 :=
  ⟨by decide,
    rateLimit_denial_status_429_without_retry_after.1 _,
    rateLimit_denial_status_429_without_retry_after.2 "Rate limited" 60 (by decide)⟩

/-- Embedding of the Prisma `Conversation` row. -/
structure Conversation where
  id : Nat
  sessionId : String
  createdAt : Nat
  updatedAt : Nat
deriving DecidableEq

/-- The `ChatResponse` returned by `handleMessage` (chat.types.ts). -/
structure ChatResponse where
  reply : String
  sessionId : String
deriving DecidableEq

/-- Outcomes of the external calls one `handleMessage` run can make, in
program order: conversation lookup, conversation creation, recent-message
load, user-message insert, LLM call, assistant-message insert, cache
delete. Each is the raw success-or-failure of the backing store before the
repository layer applies its own error handling. -/
structure ChatEnv where
  findResult : Except Unit (Option Conversation)
  createResult : Except Unit Conversation
  recentResult : Except Unit (List Message)
  saveUserResult : Except Unit Unit
  llmResult : Except ChatError String
  saveAiResult : Except Unit Unit
  cacheDelResult : Except Unit Nat

/-- Embedding of `ConversationRepository.findBySessionId`: a storage
failure is caught and surfaces as `null`. -/
def findBySessionId (r : Except Unit (Option Conversation)) : Option Conversation :=
  match r with
  | .error _ => none
  | .ok v => v

/-- Embedding of `ConversationRepository.create`: a storage failure is
caught, logged, and re-thrown as the plain
`new Error("Failed to create conversation")`. -/
def createConversation (r : Except Unit Conversation) : Except ChatError Conversation :=
  match r with
  | .error _ => .error (.jsError "Failed to create conversation")
  | .ok c => .ok c

/-- Conversation resolution of `handleMessage`: when a session id was
supplied, look it up (lookup failure or not-found both yield `none`); when
nothing resolved, create a new conversation. -/
def resolveConversation (env : ChatEnv) (sessionId : Option String) :
    Except ChatError Conversation :=
  let found := match sessionId with
    | some _ => findBySessionId env.findResult
    | none => none
  match found with
  | some c => .ok c
  | none => createConversation env.createResult

/-- `MAX_CONTEXT_MESSAGES` of chat.controller.ts. -/
def MAX_CONTEXT_MESSAGES : Nat := 5

/-- Embedding of `ChatController.fetchHistory`: on storage failure log and
continue with no context. Returns the history and the log lines. -/
def fetchHistory (r : Except Unit (List Message)) : List Message × List String :=
  match r with
  | .ok msgs => (ContextService.limitContext msgs MAX_CONTEXT_MESSAGES, [])
  | .error _ => ([], ["Failed to fetch conversation history"])

/-- Embedding of `ChatController.saveMessage`: a persistence failure is
logged and never thrown. Returns the log lines. -/
def saveMessage (r : Except Unit Unit) (sender : String) : List String :=
  match r with
  | .ok _ => []
  | .error _ => ["Failed to persist " ++ sender ++ " message"]

/-- Embedding of `CacheService.delete`: absorbs backend failures, returns
whether a key was removed. -/
def cacheDelete (r : Except Unit Nat) : Bool :=
  match r with
  | .error _ => false
  | .ok n => decide (0 < n)

/-- Embedding of JavaScript `message.trim()`: strip leading and trailing
whitespace from the character list. -/
def trimString (s : String) : String :=
  ⟨((s.data.dropWhile Char.isWhitespace).reverse.dropWhile Char.isWhitespace).reverse⟩

/-- Embedding of `ChatController.handleMessage` (chat.controller.ts):
trim and validate, resolve the conversation, fetch context, best-effort
save the user message, call the LLM, best-effort save the reply,
invalidate the cache, and return reply plus session id. Returns the
outcome and the accumulated log lines. -/
def handleMessage (env : ChatEnv) (message : String) (sessionId : Option String) :
    Except ChatError ChatResponse × List String :=
  let trimmed := trimString message
  if trimmed = "" then
    (.error (.validationError "Message cannot be empty"), [])
  else
    match resolveConversation env sessionId with
    | .error e => (.error e, ["Error in chat controller"])
    | .ok conv =>
      let hist := fetchHistory env.recentResult
      let userLogs := saveMessage env.saveUserResult "user"
      let _formatted := ContextService.formatForLLM hist.1
      match env.llmResult with
      | .error e => (.error e, hist.2 ++ userLogs ++ ["Error in chat controller"])
      | .ok reply =>
        let aiLogs := saveMessage env.saveAiResult "ai"
        let _deleted := cacheDelete env.cacheDelResult
        (.ok ⟨reply, conv.sessionId⟩, hist.2 ++ userLogs ++ aiLogs)

/-- Environment in which only conversation creation fails. -/
def envC7 : ChatEnv :=
  { findResult := .ok none
    createResult := .error ()
    recentResult := .ok []
    saveUserResult := .ok ()
    llmResult := .ok "Hello there"
    saveAiResult := .ok ()
    cacheDelResult := .ok 1 }

/-- C7 counterexample: when conversation creation (step 3) fails — every
other collaborator succeeding — `handleMessage` fails with the re-thrown
creation error instead of returning the reply, so step 3 is a third source
of user-visible failure beside steps 1 and 6. -/
theorem handleMessage_create_failure_counterexample :
    (handleMessage envC7 "Hello" none).1 =
      .error (.jsError "Failed to create conversation") :=
  rfl

/-- C7 amended: besides empty-message validation (step 1) and the LLM call
(step 6), conversation creation (step 3) is also user-visible when it
fails; failures in conversation lookup (step 2), history fetch, user- and
assistant-message persistence (steps 5, 7), and cache invalidation
(step 8) degrade gracefully: the request still returns the reply and
session token and the failure is only logged. -/
theorem handleMessage_graceful_degradation (env : ChatEnv) (message : String)
    (sessionId : Option String) (conv : Conversation) (reply : String)
    (hmsg : ¬ trimString message = "")
    (hconv : resolveConversation env sessionId = .ok conv)
    (hllm : env.llmResult = .ok reply) :
    (handleMessage env message sessionId).1 = .ok ⟨reply, conv.sessionId⟩ ∧
    (env.saveUserResult = .error () →
      "Failed to persist user message" ∈ (handleMessage env message sessionId).2) ∧
    (env.saveAiResult = .error () →
      "Failed to persist ai message" ∈ (handleMessage env message sessionId).2) ∧
    (env.recentResult = .error () →
      "Failed to fetch conversation history" ∈ (handleMessage env message sessionId).2) := by
  have heq : handleMessage env message sessionId =
      (.ok ⟨reply, conv.sessionId⟩,
        (fetchHistory env.recentResult).2 ++ saveMessage env.saveUserResult "user" ++
          saveMessage env.saveAiResult "ai") := by
    simp only [handleMessage, if_neg hmsg, hconv, hllm]
  refine ⟨by rw [heq], ?_, ?_, ?_⟩ <;> intro h <;>
    simp [heq, saveMessage, fetchHistory, h, List.mem_append]

/-- Environment in which lookup, history fetch, both persists, and cache
invalidation all fail, while creation and the LLM succeed. -/
def envC7ok : ChatEnv :=
  { findResult := .error ()
    createResult := .ok ⟨7, "sess-7", 0, 0⟩
    recentResult := .error ()
    saveUserResult := .error ()
    llmResult := .ok "Hi!"
    saveAiResult := .error ()
    cacheDelResult := .error () }

theorem handleMessage_graceful_degradation_witness :
    ¬ (trimString "Hello" = "") ∧
    resolveConversation envC7ok (some "stale-token") = .ok ⟨7, "sess-7", 0, 0⟩ ∧
    envC7ok.llmResult = .ok "Hi!" ∧
    (handleMessage envC7ok "Hello" (some "stale-token")).1 = .ok ⟨"Hi!", "sess-7"⟩ ∧
    "Failed to persist user message" ∈ (handleMessage envC7ok "Hello" (some "stale-token")).2 := by
  have h := handleMessage_graceful_degradation envC7ok "Hello" (some "stale-token")
    ⟨7, "sess-7", 0, 0⟩ "Hi!" (by decide) rfl rfl
  exact ⟨by decide, rfl, rfl, h.1, h.2.1 rfl⟩

/-- The message DTO of the history response (chat.types.ts). -/
structure MessageDTO where
  id : Nat
  sender : String
  content : String
  timestamp : Nat
deriving DecidableEq

/-- The `ConversationHistoryResponse` of chat.types.ts. -/
structure ConversationHistoryResponse where
  conversationId : Nat
  sessionId : String
  messageCount : Nat
  messages : List MessageDTO
  createdAt : Nat
  updatedAt : Nat
deriving DecidableEq

/-- A conversation row together with its messages
(`ConversationWithMessages` of conversation.repository.ts). -/
structure ConversationWithMessages where
  conv : Conversation
  messages : List Message
deriving DecidableEq

/-- Embedding of `ConversationRepository.getWithMessages`: a storage
failure is caught and re-thrown as
`DatabaseError("Failed to retrieve conversation history")`; otherwise the
row (or `null`) is returned. -/
def getWithMessages (r : Except Unit (Option ConversationWithMessages)) :
    Except ChatError (Option ConversationWithMessages) :=
  match r with
  | .error _ => .error (.databaseError "Failed to retrieve conversation history")
  | .ok v => .ok v

/-- Embedding of `ChatController.formatMessage`. -/
def formatMessage (m : Message) : MessageDTO :=
  ⟨m.id, m.sender, m.content, m.timestamp⟩

/-- The history response `ChatController.getHistory` builds from a loaded
conversation. -/
def buildHistoryResponse (c : ConversationWithMessages) : ConversationHistoryResponse :=
  { conversationId := c.conv.id
    sessionId := c.conv.sessionId
    messageCount := c.messages.length
    messages := c.messages.map formatMessage
    createdAt := c.conv.createdAt
    updatedAt := c.conv.updatedAt }

/-- Trace of one `getHistory` run: the outcome, whether the conversation
store was queried, and the cache population (key, value) when performed. -/
structure GetHistoryRun where
  result : Except ChatError ConversationHistoryResponse
  dbTouched : Bool
  cacheSet : Option (String × ConversationHistoryResponse)

/-- Embedding of `ChatController.getHistory` (chat.controller.ts): on a
cache hit return the cached value; on a miss load from the conversation
store (its failure is fatal), fail with `ConversationNotFoundError` when
no row exists, otherwise build the response, populate the cache under
`conversation:<sessionId>`, and return it. -/
def getHistory (cached : Option ConversationHistoryResponse)
    (dbResult : Except Unit (Option ConversationWithMessages))
    (sessionId : String) : GetHistoryRun :=
  match cached with
  | some c => ⟨.ok c, false, none⟩
  | none =>
    match getWithMessages dbResult with
    | .error e => ⟨.error e, true, none⟩
    | .ok none => ⟨.error (.conversationNotFoundError sessionId), true, none⟩
    | .ok (some conv) =>
      let resp := buildHistoryResponse conv
      ⟨.ok resp, true, some ("conversation:" ++ sessionId, resp)⟩

/-- C9: `getHistory` is a pure read with the claimed case analysis: a
cache hit returns the cached value without touching the conversation
store; a cache miss queries the store and fails with the storage error
when the load fails, fails with `ConversationNotFoundError` when no
conversation exists, and otherwise populates the cache with the built
response and returns it. -/
theorem getHistory_cases (cached : Option ConversationHistoryResponse)
    (dbResult : Except Unit (Option ConversationWithMessages)) (sid : String) :
    (∀ c, cached = some c →
      getHistory cached dbResult sid = ⟨.ok c, false, none⟩) ∧
    (cached = none →
      (getHistory cached dbResult sid).dbTouched = true ∧
      (dbResult = .error () →
        getHistory cached dbResult sid =
          ⟨.error (.databaseError "Failed to retrieve conversation history"),
            true, none⟩) ∧
      (dbResult = .ok none →
        getHistory cached dbResult sid =
          ⟨.error (.conversationNotFoundError sid), true, none⟩) ∧
      (∀ conv, dbResult = .ok (some conv) →
        getHistory cached dbResult sid =
          ⟨.ok (buildHistoryResponse conv), true,
            some ("conversation:" ++ sid, buildHistoryResponse conv)⟩)) := by
  constructor
  · intro c hc
    simp [getHistory, hc]
  · intro hc
    subst hc
    refine ⟨?_, ?_, ?_, ?_⟩
    · match hdb : dbResult with
      | .error u => simp [getHistory, getWithMessages]
      | .ok none => simp [getHistory, getWithMessages]
      | .ok (some conv) => simp [getHistory, getWithMessages]
    · intro h
      simp [getHistory, h, getWithMessages]
    · intro h
      simp [getHistory, h, getWithMessages]
    · intro conv h
      simp [getHistory, h, getWithMessages]

/-- Concrete conversation row used to instantiate C9. -/
def convC9 : ConversationWithMessages :=
  ⟨⟨3, "sess-3", 10, 20⟩, [⟨1, "user", "hello", 11⟩, ⟨2, "ai", "hi", 12⟩]⟩

theorem getHistory_cases_witness :
    (Except.ok (some convC9) : Except Unit (Option ConversationWithMessages)) =
      .ok (some convC9) ∧
    getHistory none (.ok (some convC9)) "sess-3" =
      ⟨.ok (buildHistoryResponse convC9), true,
        some ("conversation:" ++ "sess-3", buildHistoryResponse convC9)⟩ ∧
    getHistory (some (buildHistoryResponse convC9)) (.error ()) "sess-3" =
      ⟨.ok (buildHistoryResponse convC9), false, none⟩ :=
  ⟨rfl,
    ((getHistory_cases none (.ok (some convC9)) "sess-3").2 rfl).2.2.2 convC9 rfl,
    (getHistory_cases (some (buildHistoryResponse convC9)) (.error ()) "sess-3").1
      (buildHistoryResponse convC9) rfl⟩

end IntelliChat
